import Mathlib

/-!
Verification development for the TTSWeb repository.

The repository snapshot contains the frontend TypeScript sources
(`frontend/src/lib/store.ts`, the API client, the React components) together
with the backend documentation (`API_CONTRACT.md`, `README.md`).  The backend
Python package `ttsweb` (job manager, TTS service, routers) is documented but
its sources are not part of the snapshot; definitions that embed that missing
backend are marked with a doc comment starting with `Modelled from the spec:`.
All other definitions are shallow embeddings of the TypeScript sources or of
the tables in `API_CONTRACT.md` / `README.md`.
-/

namespace TTSWeb

/-- Job status values, translated from the `JobStatus` union type in the
frontend schema (`src/unnamed/part_003`, lines 1-7).  Note that the union has
six members, including `streaming`. -/
inductive JobStatus where
  | queued
  | processing
  | streaming
  | completed
  | failed
  | cancelled
deriving DecidableEq, Repr

/-- Terminal-status test used by the polling loop `pollJob`
(`src/unnamed/part_002`, line 116): exactly `completed`, `failed` and
`cancelled` stop the loop. -/
def isTerminal : JobStatus → Bool
  | .completed => true
  | .failed => true
  | .cancelled => true
  | _ => false

/-- Error taxonomy of the service, from spec section 7 and the error-code
table of `API_CONTRACT.md`. -/
inductive ErrKind where
  | validationError
  | consentRequired
  | payloadTooLarge
  | unsupportedMedia
  | invalidState
  | notFound
  | capabilityFailure
deriving DecidableEq, Repr

/-- HTTP status code for each error kind, from the error-code table of
`API_CONTRACT.md` (400 validation, 403 consent, 404 unknown job, 409 terminal
state, 413 payload too large, 500 internal).  The table lists no code for
`unsupportedMedia`, hence `none` there. -/
def httpStatus : ErrKind → Option Nat
  | .validationError => some 400
  | .consentRequired => some 403
  | .payloadTooLarge => some 413
  | .unsupportedMedia => none
  | .invalidState => some 409
  | .notFound => some 404
  | .capabilityFailure => some 500

/-- Service configuration knobs, from the environment-variable table in the
backend `README.md` (`TTSWEB_MAX_CONCURRENT_JOBS`, `TTSWEB_MAX_TEXT_LENGTH`,
`TTSWEB_MAX_AUDIO_UPLOAD_MB`). -/
structure Config where
  maxConcurrentJobs : Nat
  maxTextLength : Nat
  maxAudioUploadBytes : Nat
deriving DecidableEq, Repr

/-- Documented default configuration: 4 concurrent jobs, 10000 characters of
text, 25 MB of reference audio (README environment-variable table). -/
def defaultConfig : Config :=
  { maxConcurrentJobs := 4
    maxTextLength := 10000
    maxAudioUploadBytes := 25 * 1024 * 1024 }

/-- Poll response shape, from `JobStatusResponse` in the frontend schema
(`src/unnamed/part_003`, lines 31-39).  JSON numbers are embedded as
rationals. -/
structure JobStatusResponse where
  jobId : String
  status : JobStatus
  progress : Option ℚ
  error : Option String
  audioUrl : Option String
  createdAt : String
  updatedAt : String
deriving DecidableEq, Repr

/-- Unrolling of the `pollJob` loop (`src/unnamed/part_002`, lines 106-122)
over a finite list of successive poll responses.  The loop re-polls forever
until a response with a terminal status arrives; on the finite unrolling this
is `none` when the list is exhausted without a terminal response.  On success
the second component is the list of responses handed to the `onProgress`
callback, in order, one per poll, up to and including the returned one. -/
def pollJobRun : List JobStatusResponse → Option (JobStatusResponse × List JobStatusResponse)
  | [] => none
  | s :: rest =>
      if isTerminal s.status then some (s, [s])
      else
        match pollJobRun rest with
        | none => none
        | some (r, vis) => some (r, s :: vis)

/-- Frontend mode union from `store.ts` line 5 (four members, including
`tokenizer`). -/
inductive StoreMode where
  | custom
  | design
  | clone
  | tokenizer
deriving DecidableEq, Repr

/-- The Zustand store state of the frontend, from the `TTSState` interface in
`frontend/src/lib/store.ts` (data fields only; the actions are embedded as
functions on this structure). -/
structure TTSState where
  mode : StoreMode
  text : String
  instruct : String
  advancedMode : Bool
  selectedSpeaker : String
  selectedLanguage : String
  refText : String
  xVectorOnly : Bool
  consentAcknowledged : Bool
  cloneTimbre : Option String
  isGenerating : Bool
  jobId : Option String
  jobStatus : Option JobStatus
  progress : ℚ
  error : Option String
  resultAudioUrl : Option String
deriving DecidableEq, Repr

/-- Request object passed to `api.createVoiceClone`, as built by the store
(`store.ts` lines 136-144); optional fields model the `x || undefined`
idiom. -/
structure VoiceCloneRequest where
  text : String
  language : String
  refText : Option String
  xVectorOnlyMode : Bool
  consentAcknowledged : Bool
  instruct : Option String
  speaker : Option String
deriving DecidableEq, Repr

/-- JS `String(b)` on a boolean. -/
def boolString : Bool → String
  | true => "true"
  | false => "false"

/-- JS truthiness of a nullable string: `null` and the empty string are both
falsy. -/
def strTruthy : Option String → Bool
  | none => false
  | some s => !(s == "")

/-- Voice-clone request built by the `generate` action in clone mode
(`store.ts` lines 136-144).  The `consent_acknowledged` field is the literal
`true`; the state field `consentAcknowledged` is not read (it is not even
destructured on line 114).  `refText || undefined` and `instruct || undefined`
drop empty strings, `cloneTimbre || undefined` drops null and empty. -/
def cloneRequestOfState (s : TTSState) : VoiceCloneRequest :=
  { text := s.text
    language := s.selectedLanguage
    refText := if s.refText = "" then none else some s.refText
    xVectorOnlyMode := s.xVectorOnly
    consentAcknowledged := true
    instruct := if s.instruct = "" then none else some s.instruct
    speaker :=
      match s.cloneTimbre with
      | none => none
      | some c => if c = "" then none else some c }

/-- Multipart form fields appended by `api.createVoiceClone`
(`src/unnamed/part_002`, lines 57-65), in order; the `audio` entry stands for
the attached blob named `reference.wav`.  The guards mirror the JS truthiness
tests `if (req.ref_text)` and `if (req.instruct)`; the `speaker` field of the
request is never appended. -/
def cloneFormData (req : VoiceCloneRequest) : List (String × String) :=
  [("audio", "reference.wav"), ("text", req.text), ("language", req.language)]
    ++ (match req.refText with
        | some r => if r = "" then [] else [("ref_text", r)]
        | none => [])
    ++ [("x_vector_only_mode", boolString req.xVectorOnlyMode),
        ("consent_acknowledged", boolString req.consentAcknowledged)]
    ++ (match req.instruct with
        | some i => if i = "" then [] else [("instruct", i)]
        | none => [])

/-- Client-side `api.cancelJob` (`src/unnamed/part_002`, lines 80-82): it
fires the POST and ignores the HTTP response entirely, returning unit for any
status code. -/
def cancelJobClient (_respCode : Nat) : Unit := ()

/-- The `cancelGeneration` action (`store.ts` lines 181-187).  The guard is
the JS truthiness test `if (jobId)`; inside the guard the cancel call ignores
the response and the store is updated unconditionally.  `respCode` is the HTTP
status the server answered with. -/
def cancelGeneration (s : TTSState) (respCode : Nat) : TTSState :=
  if strTruthy s.jobId then
    let _ := cancelJobClient respCode
    { s with isGenerating := false, jobStatus := some .cancelled }
  else s

/-- Reference-audio payload as seen by the normalizer: its byte size and the
result of attempting to decode it (`some c` when it decodes as container `c`,
`none` when it is not decodable at all). -/
structure CloneAudio where
  sizeBytes : Nat
  decodableContainer : Option String
deriving DecidableEq, Repr

/-- Accepted reference-audio containers, from the `voice-clone` field table of
`API_CONTRACT.md` (WAV/MP3/FLAC). -/
def acceptedContainers : List String := ["wav", "mp3", "flac"]

/-- Raw request for one of the four TTS modes, from the REST field tables of
`API_CONTRACT.md` and the frontend schema: direct speaker synthesis,
natural-language voice design, voice cloning from reference audio, and
design-then-clone over many texts. -/
inductive RawRequest where
  | customVoice (text language speaker : String) (instruct : Option String)
  | voiceDesign (text language instruct : String)
  | voiceClone (text language : String) (refText : Option String)
      (xVectorOnly : Bool) (consentAcknowledged : Option Bool)
      (audio : CloneAudio) (instruct : Option String)
  | voiceDesignClone (designText designLanguage designInstruct : String)
      (cloneTexts cloneLanguages : List String)
deriving DecidableEq, Repr

/-- Normalized job specification produced by the Request Normalizer; it
carries the validated request verbatim (so no field is truncated or
rewritten). -/
structure JobSpec where
  request : RawRequest
deriving DecidableEq, Repr

/-- Test whether a payload decodes as one of the accepted containers. -/
def decodableAccepted (audio : CloneAudio) : Bool :=
  match audio.decodableContainer with
  | none => false
  | some c => decide (c ∈ acceptedContainers)

/-- Text fields subject to the length bound, per mode: the synthesized text,
and for design-then-clone the design sentence together with every clone
text. -/
def textFields : RawRequest → List String
  | .customVoice t _ _ _ => [t]
  | .voiceDesign t _ _ => [t]
  | .voiceClone t _ _ _ _ _ _ => [t]
  | .voiceDesignClone dt _ _ cts _ => dt :: cts

/-- Modelled from the spec: the Request Normalizer of the backend package
`ttsweb` (schemas/routers/tts_service), which is documented in spec section
4.1 and `API_CONTRACT.md` but whose Python source is not in the snapshot.
Checks, in order: for cloning, the consent flag (the contract states
unconditionally that the endpoint returns 403 when `consent_acknowledged` is
not true, so this check comes first), then the reference-audio size bound and
container decodability; in every mode the text-length bound; for
design-then-clone also that the two clone lists have equal nonzero length.  On
success the request is carried into the job specification unchanged. -/
def normalize (cfg : Config) (req : RawRequest) : Except ErrKind JobSpec :=
  match req with
  | .customVoice t _ _ _ =>
      if cfg.maxTextLength < t.length then .error .validationError else .ok ⟨req⟩
  | .voiceDesign t _ _ =>
      if cfg.maxTextLength < t.length then .error .validationError else .ok ⟨req⟩
  | .voiceClone t _ _ _ consent audio _ =>
      if consent = some true then
        if cfg.maxAudioUploadBytes < audio.sizeBytes then .error .payloadTooLarge
        else if decodableAccepted audio then
          if cfg.maxTextLength < t.length then .error .validationError
          else .ok ⟨req⟩
        else .error .unsupportedMedia
      else .error .consentRequired
  | .voiceDesignClone dt _ _ cts cls =>
      if cts.length ≠ cls.length ∨ cts.length = 0 then .error .validationError
      else if (dt :: cts).any (fun s => decide (cfg.maxTextLength < s.length)) then
        .error .validationError
      else .ok ⟨req⟩

/-- Guards that precede the text-length check for a cloning request (consent
acknowledged, audio within the size bound and decodable as an accepted
container); trivially true for the other modes. -/
def cloneGuards (cfg : Config) : RawRequest → Prop
  | .voiceClone _ _ _ _ consent audio _ =>
      consent = some true ∧ audio.sizeBytes ≤ cfg.maxAudioUploadBytes ∧
        decodableAccepted audio = true
  | _ => True

/-- Modelled from the spec: a job record of the backend Job Store
(`services/job_manager.py`, not in the snapshot), per the data model of spec
section 3: lifecycle state, fractional progress, error message, result
handle. -/
structure Job where
  status : JobStatus
  progress : ℚ
  error : Option String
  result : Option String
deriving DecidableEq, Repr

/-- Modelled from the spec: a freshly created job starts in `queued` with no
progress, error or result. -/
def initialJob : Job :=
  { status := .queued, progress := 0, error := none, result := none }

/-- Modelled from the spec: admission into the Job Store (backend orchestrator,
not in the snapshot).  A job record is appended only when normalization
succeeds; a normalization error is returned synchronously and the store is
left untouched. -/
def createJob (cfg : Config) (req : RawRequest) (store : List Job) :
    Except ErrKind Nat × List Job :=
  match normalize cfg req with
  | .error e => (.error e, store)
  | .ok _ => (.ok store.length, store ++ [initialJob])

/-- A file chosen in the upload dialog: MIME type and byte size, as read by
the client-side handler. -/
structure UploadFile where
  mimeType : String
  sizeBytes : Nat
deriving DecidableEq, Repr

/-- Client-side upload validation from `handleFileUpload`
(`src/unnamed/part_004`, lines 248-267): the file is passed on only when its
MIME type starts with `audio/` and its size does not exceed 25 MB. -/
def fileUploadAccepted (f : UploadFile) : Bool :=
  f.mimeType.startsWith "audio/" && !(25 * 1024 * 1024 < f.sizeBytes : Bool)

/-- Modelled from the spec: the progress-callback update of the backend
orchestrator (spec section 4.2: update progress monotonically, never
decreasing, clamped to the half-open unit interval).  An incoming value below
zero is clamped to zero; a value of one or more is ignored, keeping the
current progress, so the update never reaches one. -/
def progUpdate (cur q : ℚ) : ℚ :=
  max cur (if q < 1 then max q 0 else cur)

/-- Processing test on a job record. -/
def isProcessing (j : Job) : Bool := decide (j.status = JobStatus.processing)

/-- Number of jobs currently in `processing` — the number of capability slots
in use. -/
def procCount (js : List Job) : Nat := js.countP isProcessing

/-- Modelled from the spec: the per-job transitions of the backend Job
Orchestrator state machine (spec section 4.2; `services/job_manager.py` and
`model_manager.py` are not in the snapshot).  `gateOpen` is the capability
gate condition under which a queued job may start processing. -/
inductive JobEdge (gateOpen : Prop) : Job → Job → Prop
  | start (j : Job) (hq : j.status = .queued) (hg : gateOpen) :
      JobEdge gateOpen j { j with status := .processing, progress := 0 }
  | progressMsg (j : Job) (q : ℚ) (hp : j.status = .processing) :
      JobEdge gateOpen j { j with progress := progUpdate j.progress q }
  | complete (j : Job) (res : String) (hp : j.status = .processing) :
      JobEdge gateOpen j
        { j with status := .completed, progress := 1, result := some res }
  | fail (j : Job) (msg : String) (hp : j.status = .processing) :
      JobEdge gateOpen j { j with status := .failed, error := some msg }
  | cancelQueued (j : Job) (hq : j.status = .queued) :
      JobEdge gateOpen j { j with status := .cancelled }
  | cancelProcessing (j : Job) (hp : j.status = .processing) :
      JobEdge gateOpen j { j with status := .cancelled }

/-- Modelled from the spec: one step of the whole system over the Job Store
(a list of job records; a job identity is its position).  Either a new job is
admitted in `queued`, or exactly one job takes a state-machine edge; a queued
job may start processing only while fewer than `maxConcurrentJobs` jobs are
processing (the capability gate of spec section 4.3). -/
inductive Step (cfg : Config) : List Job → List Job → Prop
  | enqueue (js : List Job) : Step cfg js (js ++ [initialJob])
  | update (l r : List Job) (j j' : Job)
      (e : JobEdge (procCount (l ++ j :: r) < cfg.maxConcurrentJobs) j j') :
      Step cfg (l ++ j :: r) (l ++ j' :: r)

/-- States of the Job Store reachable from the empty store. -/
inductive Reachable (cfg : Config) : List Job → Prop
  | init : Reachable cfg []
  | step (js js' : List Job) :
      Reachable cfg js → Step cfg js js' → Reachable cfg js'

/-- Per-job invariant maintained by the orchestrator: progress stays within
the unit interval, is zero while queued, stays strictly below one while
processing, and equals one exactly for completed jobs. -/
def JobInv (j : Job) : Prop :=
  0 ≤ j.progress ∧ j.progress ≤ 1 ∧
    (j.status = .queued → j.progress = 0) ∧
    (j.status = .processing → j.progress < 1) ∧
    (j.progress = 1 → j.status = .completed) ∧
    (j.status = .completed → j.progress = 1)

/-- Store-wide invariant: every job record satisfies `JobInv`. -/
def StoreInv (js : List Job) : Prop := ∀ j ∈ js, JobInv j

/-- Modelled from the spec: the Job Store `cancel` operation of the backend
(`POST /jobs/id/cancel`; `routers/jobs.py` is not in the snapshot).  Unknown
identities answer `notFound`; a job already in a terminal state answers
`invalidState` and the store is not touched; otherwise the job moves to
`cancelled`. -/
def storeCancel (js : List Job) (i : Nat) : Except ErrKind (List Job) :=
  match js[i]? with
  | none => .error .notFound
  | some j =>
      if isTerminal j.status then .error .invalidState
      else .ok (js.set i { j with status := .cancelled })

/-- Store resulting from a cancel request: unchanged whenever the operation
reports an error. -/
def storeAfterCancel (js : List Job) (i : Nat) : List Job :=
  match storeCancel js i with
  | .ok js2 => js2
  | .error _ => js
theorem getElem?_middle {α : Type} (l r : List α) (j : α) :
    (l ++ j :: r)[l.length]? = some j := by
  induction l with
  | nil => simp
  | cons a t ih => simpa using ih

theorem getElem?_middle_ne {α : Type} (l r : List α) (j j' : α) (i : Nat)
    (h : i ≠ l.length) : (l ++ j' :: r)[i]? = (l ++ j :: r)[i]? := by
  induction l generalizing i with
  | nil =>
      cases i with
      | zero => exact absurd rfl h
      | succ n => simp
  | cons a t ih =>
      cases i with
      | zero => simp
      | succ n =>
          have hn : n ≠ t.length := by
            intro hn; exact h (by simp [hn])
          simpa using ih n hn

theorem le_progUpdate (cur q : ℚ) : cur ≤ progUpdate cur q :=
  le_max_left _ _

theorem progUpdate_nonneg {cur : ℚ} (q : ℚ) (h : 0 ≤ cur) :
    0 ≤ progUpdate cur q :=
  le_trans h (le_progUpdate cur q)

theorem progUpdate_lt_one {cur : ℚ} (q : ℚ) (h : cur < 1) :
    progUpdate cur q < 1 := by
  unfold progUpdate
  by_cases hq : q < 1
  · rw [if_pos hq]
    exact max_lt h (max_lt hq one_pos)
  · rw [if_neg hq]
    exact max_lt h h

theorem procCount_decomp (l r : List Job) (j : Job) :
    procCount (l ++ j :: r) = procCount l + (procCount [j] + procCount r) := by
  unfold procCount
  rw [List.countP_append]
  have hc : (j :: r) = [j] ++ r := rfl
  rw [hc, List.countP_append]

theorem initialJob_inv : JobInv initialJob := by
  refine ⟨?_, ?_, ?_, ?_, ?_, ?_⟩ <;> simp [initialJob, JobInv]

theorem JobEdge.preservesInv {g : Prop} {j j' : Job} (e : JobEdge g j j')
    (h : JobInv j) : JobInv j' := by
  obtain ⟨h0, h1, hq0, hp1, he1, hc1⟩ := h
  cases e with
  | start hq hg =>
      exact ⟨le_refl 0, by norm_num, fun _ => rfl,
        fun _ => by norm_num, fun hh => absurd hh (by norm_num),
        fun hh => JobStatus.noConfusion hh⟩
  | progressMsg q hp =>
      have hlt : progUpdate j.progress q < 1 := progUpdate_lt_one q (hp1 hp)
      exact ⟨progUpdate_nonneg q h0, le_of_lt hlt,
        fun hh => JobStatus.noConfusion (hp.symm.trans hh), fun _ => hlt,
        fun hh => absurd hh (ne_of_lt hlt),
        fun hh => JobStatus.noConfusion (hp.symm.trans hh)⟩
  | complete res hp =>
      exact ⟨by norm_num, le_refl 1, fun hh => JobStatus.noConfusion hh,
        fun hh => JobStatus.noConfusion hh, fun _ => rfl, fun _ => rfl⟩
  | fail msg hp =>
      have hlt : j.progress < 1 := hp1 hp
      exact ⟨h0, h1, fun hh => JobStatus.noConfusion hh,
        fun hh => JobStatus.noConfusion hh,
        fun hh => absurd hh (ne_of_lt hlt),
        fun hh => JobStatus.noConfusion hh⟩
  | cancelQueued hq =>
      have hz : j.progress = 0 := hq0 hq
      exact ⟨h0, h1, fun hh => JobStatus.noConfusion hh,
        fun hh => JobStatus.noConfusion hh,
        fun hh => absurd hh (by rw [hz]; norm_num),
        fun hh => JobStatus.noConfusion hh⟩
  | cancelProcessing hp =>
      have hlt : j.progress < 1 := hp1 hp
      exact ⟨h0, h1, fun hh => JobStatus.noConfusion hh,
        fun hh => JobStatus.noConfusion hh,
        fun hh => absurd hh (ne_of_lt hlt),
        fun hh => JobStatus.noConfusion hh⟩

theorem JobEdge.progress_mono {g : Prop} {j j' : Job} (e : JobEdge g j j')
    (h : JobInv j) : j.progress ≤ j'.progress := by
  obtain ⟨h0, h1, hq0, hp1, he1, hc1⟩ := h
  cases e with
  | start hq hg => exact le_of_eq (hq0 hq)
  | progressMsg q hp => exact le_progUpdate j.progress q
  | complete res hp => exact h1
  | fail msg hp => exact le_refl _
  | cancelQueued hq => exact le_refl _
  | cancelProcessing hp => exact le_refl _

theorem step_at {cfg : Config} {js js' : List Job} (h : Step cfg js js')
    (i : Nat) (j : Job) (hi : js[i]? = some j) :
    js'[i]? = some j ∨
      ∃ j', js'[i]? = some j' ∧
        JobEdge (procCount js < cfg.maxConcurrentJobs) j j' := by
  cases h with
  | enqueue js =>
      left
      have hlt : i < js.length := (List.getElem?_eq_some.mp hi).1
      rw [List.getElem?_append_left hlt]
      exact hi
  | update l r j0 j' e =>
      by_cases hil : i = l.length
      · subst hil
        rw [getElem?_middle] at hi
        obtain rfl : j0 = j := Option.some.inj hi
        exact Or.inr ⟨j', getElem?_middle l r j', e⟩
      · left
        rw [getElem?_middle_ne l r j0 j' i hil]
        exact hi

theorem reachable_procCount_le {cfg : Config} {js : List Job}
    (h : Reachable cfg js) : procCount js ≤ cfg.maxConcurrentJobs := by
  induction h with
  | init => simp [procCount]
  | step ks ks' hr hs ih =>
      cases hs with
      | enqueue _ =>
          have he : procCount (ks ++ [initialJob]) = procCount ks := by
            unfold procCount
            rw [List.countP_append]
            simp [List.countP_cons, isProcessing, initialJob]
          rw [he]; exact ih
      | update l r j0 j' e =>
          rw [procCount_decomp] at ih ⊢
          cases e with
          | start hq hg =>
              have ha : procCount [j0] = 0 := by
                simp [procCount, List.countP_cons, isProcessing, hq]
              have hb : procCount [{ j0 with status := JobStatus.processing, progress := 0 }] = 1 := rfl
              rw [procCount_decomp, ha] at hg
              rw [hb]
              omega
          | progressMsg q hp =>
              have hb : procCount [{ j0 with progress := progUpdate j0.progress q }] = procCount [j0] := rfl
              rw [hb]
              exact ih
          | complete res hp =>
              have ha : procCount [j0] = 1 := by
                simp [procCount, List.countP_cons, isProcessing, hp]
              have hb : procCount [{ j0 with status := JobStatus.completed, progress := 1, result := some res }] = 0 := rfl
              rw [ha] at ih
              rw [hb]
              omega
          | fail msg hp =>
              have ha : procCount [j0] = 1 := by
                simp [procCount, List.countP_cons, isProcessing, hp]
              have hb : procCount [{ j0 with status := JobStatus.failed, error := some msg }] = 0 := rfl
              rw [ha] at ih
              rw [hb]
              omega
          | cancelQueued hq =>
              have ha : procCount [j0] = 0 := by
                simp [procCount, List.countP_cons, isProcessing, hq]
              have hb : procCount [{ j0 with status := JobStatus.cancelled }] = 0 := rfl
              rw [ha] at ih
              rw [hb]
              omega
          | cancelProcessing hp =>
              have ha : procCount [j0] = 1 := by
                simp [procCount, List.countP_cons, isProcessing, hp]
              have hb : procCount [{ j0 with status := JobStatus.cancelled }] = 0 := rfl
              rw [ha] at ih
              rw [hb]
              omega

theorem reachable_storeInv {cfg : Config} {js : List Job}
    (h : Reachable cfg js) : StoreInv js := by
  induction h with
  | init => intro j hj; simp at hj
  | step ks ks' hr hs ih =>
      cases hs with
      | enqueue _ =>
          intro j hj
          rcases List.mem_append.mp hj with hj | hj
          · exact ih j hj
          · rw [List.mem_singleton.mp hj]
            exact initialJob_inv
      | update l r j0 j' e =>
          intro j hj
          rcases List.mem_append.mp hj with hj | hj
          · exact ih j (List.mem_append.mpr (Or.inl hj))
          · rcases List.mem_cons.mp hj with rfl | hj
            · exact e.preservesInv
                (ih j0 (List.mem_append.mpr (Or.inr (List.mem_cons_self j0 r))))
            · exact ih j (List.mem_append.mpr (Or.inr (List.mem_cons_of_mem j0 hj)))

theorem isTerminal_ne {st : JobStatus} (h : isTerminal st = true) :
    st ≠ JobStatus.queued ∧ st ≠ JobStatus.processing ∧ st ≠ JobStatus.streaming := by
  cases st <;> simp_all [isTerminal]

/-- Claim C8: the `generate` action in clone mode sends
`consent_acknowledged: true` on every invocation, independent of the store
field `consentAcknowledged`: states differing only in that field produce the
same voice-clone request and the same multipart form data, and the form always
carries the pair `consent_acknowledged = true`. -/
theorem cloneConsentIndependent (s : TTSState) (b : Bool) :
    cloneRequestOfState { s with consentAcknowledged := b } = cloneRequestOfState s ∧
    (cloneRequestOfState s).consentAcknowledged = true ∧
    cloneFormData (cloneRequestOfState { s with consentAcknowledged := b })
      = cloneFormData (cloneRequestOfState s) ∧
    ("consent_acknowledged", "true") ∈ cloneFormData (cloneRequestOfState s) := by
  refine ⟨rfl, rfl, rfl, ?_⟩
  simp [cloneFormData, cloneRequestOfState, boolString]

/-- Claim C9: on any finite sequence of polled statuses, `pollJob` returns
the first response whose status is `completed`, `failed` or `cancelled`,
invokes `onProgress` once per polled response up to and including that one
(the returned visit list is exactly that prefix), never returns a `queued`,
`processing` or `streaming` response, and produces no result when no polled
status is ever terminal (the real loop polls forever in that case). -/
theorem pollJobFirstTerminal (l : List JobStatusResponse) :
    (∀ r vis, pollJobRun l = some (r, vis) →
      isTerminal r.status = true ∧
      r.status ≠ JobStatus.queued ∧ r.status ≠ JobStatus.processing ∧
      r.status ≠ JobStatus.streaming ∧
      ∃ n, l[n]? = some r ∧ vis = l.take (n + 1) ∧
        ∀ m s2, m < n → l[m]? = some s2 → isTerminal s2.status = false) ∧
    (pollJobRun l = none ↔ ∀ s2 ∈ l, isTerminal s2.status = false) := by
  induction l with
  | nil =>
      constructor
      · intro r vis h
        simp [pollJobRun] at h
      · simp [pollJobRun]
  | cons s rest ih =>
      by_cases hterm : isTerminal s.status = true
      · have hrw : pollJobRun (s :: rest) = some (s, [s]) := by
          unfold pollJobRun
          rw [if_pos hterm]
        constructor
        · intro r vis h
          rw [hrw] at h
          simp only [Option.some.injEq, Prod.mk.injEq] at h
          obtain ⟨rfl, rfl⟩ := h
          obtain ⟨hne1, hne2, hne3⟩ := isTerminal_ne hterm
          refine ⟨hterm, hne1, hne2, hne3, 0, by simp, by simp, ?_⟩
          intro m s2 hm
          exact absurd hm (Nat.not_lt_zero m)
        · rw [hrw]
          constructor
          · intro h
            exact Option.noConfusion h
          · intro hall
            have hfs := hall s (List.mem_cons_self s rest)
            rw [hterm] at hfs
            exact Bool.noConfusion hfs
      · have hf : isTerminal s.status = false := by
          cases hb : isTerminal s.status
          · rfl
          · exact absurd hb hterm
        have hrwN : pollJobRun rest = none → pollJobRun (s :: rest) = none := by
          intro hh
          simp only [pollJobRun]
          rw [if_neg hterm, hh]
        have hrwS : ∀ r vis, pollJobRun rest = some (r, vis) →
            pollJobRun (s :: rest) = some (r, s :: vis) := by
          intro r vis hh
          simp only [pollJobRun]
          rw [if_neg hterm, hh]
        cases hrest : pollJobRun rest with
        | none =>
            have hrw : pollJobRun (s :: rest) = none := hrwN hrest
            constructor
            · intro r vis h
              rw [hrw] at h
              exact Option.noConfusion h
            · rw [hrw]
              constructor
              · intro _ s2 hs2
                rcases List.mem_cons.mp hs2 with rfl | hs2
                · exact hf
                · exact (ih.2.mp hrest) s2 hs2
              · intro _
                rfl
        | some p =>
            obtain ⟨r0, vis0⟩ := p
            have hrw : pollJobRun (s :: rest) = some (r0, s :: vis0) := hrwS r0 vis0 hrest
            obtain ⟨ht, hne1, hne2, hne3, n0, hget, hvis, hmin⟩ := ih.1 r0 vis0 hrest
            constructor
            · intro r vis h
              rw [hrw] at h
              simp only [Option.some.injEq, Prod.mk.injEq] at h
              obtain ⟨rfl, rfl⟩ := h
              refine ⟨ht, hne1, hne2, hne3, n0 + 1, ?_, ?_, ?_⟩
              · simpa using hget
              · rw [List.take_succ_cons, hvis]
              · intro m s2 hm hget2
                cases m with
                | zero =>
                    have hs2 : s = s2 := by simpa using hget2
                    rw [← hs2]
                    exact hf
                | succ m' =>
                    have hm' : m' < n0 := by omega
                    exact hmin m' s2 hm' (by simpa using hget2)
            · rw [hrw]
              constructor
              · intro h
                exact Option.noConfusion h
              · intro hall
                have hr0 : r0 ∈ rest := List.getElem?_mem hget
                have hfr := hall r0 (List.mem_cons_of_mem s hr0)
                rw [hfr] at ht
                exact Bool.noConfusion ht

/-- A concrete frontend store state whose `jobId` is the non-null empty
string. -/
def stateEmptyJobId : TTSState :=
  { mode := .clone, text := "hello", instruct := "", advancedMode := false,
    selectedSpeaker := "vivian", selectedLanguage := "Auto", refText := "",
    xVectorOnly := false, consentAcknowledged := false, cloneTimbre := none,
    isGenerating := true, jobId := some "", jobStatus := some .processing,
    progress := 0, error := none, resultAudioUrl := none }

/-- Claim C10 counterexample: with the non-null empty-string `jobId` the JS
truthiness guard `if (jobId)` is false, so `cancelGeneration` changes nothing
even though `jobId` is not null — refuting the claim that a non-null `jobId`
always yields `jobStatus = cancelled` and `isGenerating = false`. -/
theorem cancelGenerationEmptyIdUnchanged :
    stateEmptyJobId.jobId ≠ none ∧
    cancelGeneration stateEmptyJobId 200 = stateEmptyJobId ∧
    stateEmptyJobId.jobStatus ≠ some JobStatus.cancelled ∧
    stateEmptyJobId.isGenerating = true := by
  refine ⟨?_, rfl, ?_, rfl⟩
  · simp [stateEmptyJobId]
  · simp [stateEmptyJobId]

/-- Claim C10 (amended): whenever the store holds a truthy `jobId` (non-null
and non-empty), `cancelGeneration` sets `jobStatus := cancelled` and
`isGenerating := false` and changes nothing else, for every HTTP response code
the cancel endpoint may answer (success, 404 or 409 alike); when `jobId` is
null or empty it changes no store field at all; and the result never depends
on the response code. -/
theorem cancelGenerationTruthyGuard (s : TTSState) (respCode : Nat) :
    (strTruthy s.jobId = true →
      cancelGeneration s respCode
        = { s with isGenerating := false, jobStatus := some JobStatus.cancelled }) ∧
    (strTruthy s.jobId = false → cancelGeneration s respCode = s) ∧
    (∀ other : Nat, cancelGeneration s respCode = cancelGeneration s other) := by
  refine ⟨fun h => ?_, fun h => ?_, fun other => rfl⟩
  · simp [cancelGeneration, h]
  · simp [cancelGeneration, h]

/-- A concrete frontend store state holding a normal job id. -/
def stateWithJob : TTSState :=
  { mode := .custom, text := "hello", instruct := "", advancedMode := false,
    selectedSpeaker := "vivian", selectedLanguage := "Auto", refText := "",
    xVectorOnly := false, consentAcknowledged := false, cloneTimbre := none,
    isGenerating := true, jobId := some "job-1", jobStatus := some .processing,
    progress := 0, error := none, resultAudioUrl := none }

/-- Claim C10 witness: the amended theorem applied to a concrete state with a
real job id and the 404 response code. -/
theorem cancelGenerationTruthyGuard_witness :
    cancelGeneration stateWithJob 404
      = { stateWithJob with isGenerating := false, jobStatus := some JobStatus.cancelled } :=
  (cancelGenerationTruthyGuard stateWithJob 404).1 rfl

theorem length_mk (l : List Char) : (String.mk l).length = l.length := rfl

/-- A text of length 10001, one character over the documented cap. -/
def longText : String := String.mk (List.replicate 10001 'a')

theorem longText_length : longText.length = 10001 := by
  rw [longText, length_mk, List.length_replicate]

theorem normalize_clone_noconsent (cfg : Config) (t lang : String)
    (rt : Option String) (xv : Bool) (consent : Option Bool)
    (audio : CloneAudio) (ins : Option String) (h : consent ≠ some true) :
    normalize cfg (.voiceClone t lang rt xv consent audio ins)
      = .error .consentRequired := by
  simp only [normalize]
  rw [if_neg h]

theorem normalize_err_of_longText (cfg : Config) (req : RawRequest)
    (h : ∃ t ∈ textFields req, cfg.maxTextLength < t.length) :
    ∃ e, normalize cfg req = .error e := by
  obtain ⟨t0, ht0, hlen⟩ := h
  cases req with
  | customVoice t lang sp ins =>
      obtain rfl : t0 = t := by simpa [textFields] using ht0
      exact ⟨.validationError, by simp only [normalize]; rw [if_pos hlen]⟩
  | voiceDesign t lang ins =>
      obtain rfl : t0 = t := by simpa [textFields] using ht0
      exact ⟨.validationError, by simp only [normalize]; rw [if_pos hlen]⟩
  | voiceClone t lang rt xv consent audio ins =>
      by_cases hc : consent = some true
      · by_cases hsize : cfg.maxAudioUploadBytes < audio.sizeBytes
        · exact ⟨.payloadTooLarge, by
            simp only [normalize]; rw [if_pos hc, if_pos hsize]⟩
        · by_cases hacc : decodableAccepted audio = true
          · obtain rfl : t0 = t := by simpa [textFields] using ht0
            exact ⟨.validationError, by
              simp only [normalize]
              rw [if_pos hc, if_neg hsize, if_pos hacc, if_pos hlen]⟩
          · exact ⟨.unsupportedMedia, by
              simp only [normalize]
              rw [if_pos hc, if_neg hsize, if_neg hacc]⟩
      · exact ⟨.consentRequired,
          normalize_clone_noconsent cfg t lang rt xv consent audio ins hc⟩
  | voiceDesignClone dt dl di cts cls =>
      by_cases h1 : cts.length ≠ cls.length ∨ cts.length = 0
      · exact ⟨.validationError, by simp only [normalize]; rw [if_pos h1]⟩
      · refine ⟨.validationError, ?_⟩
        simp only [normalize]
        rw [if_neg h1]
        have hany : (dt :: cts).any
            (fun s2 => decide (cfg.maxTextLength < s2.length)) = true := by
          rw [List.any_eq_true]
          exact ⟨t0, by simpa [textFields] using ht0, by simpa using hlen⟩
        rw [if_pos hany]

theorem normalize_ok_id (cfg : Config) (req : RawRequest) (spec : JobSpec)
    (h : normalize cfg req = Except.ok spec) : spec.request = req := by
  cases req <;> simp only [normalize] at h <;> (repeat' split at h) <;>
    first
      | exact Except.noConfusion h
      | (obtain rfl := Except.ok.inj h; rfl)

theorem createJob_err (cfg : Config) (req : RawRequest) (store : List Job)
    (h : ∃ e, normalize cfg req = .error e) :
    (createJob cfg req store).2 = store := by
  obtain ⟨e, he⟩ := h
  simp [createJob, he]

/-- Claim C3: a cloning request whose consent flag is absent or not true is
rejected with the distinct `consentRequired` error (HTTP 403, not the 400 of a
generic validation error) before any job is created, and a cloning request
passes normalization only when the flag is literally true. -/
theorem consentRequiredEnforced (cfg : Config) (t lang : String)
    (rt : Option String) (xv : Bool) (consent : Option Bool)
    (audio : CloneAudio) (ins : Option String) (store : List Job)
    (h : consent ≠ some true) :
    normalize cfg (.voiceClone t lang rt xv consent audio ins)
      = .error .consentRequired ∧
    (createJob cfg (.voiceClone t lang rt xv consent audio ins) store).2 = store ∧
    httpStatus .consentRequired = some 403 ∧
    httpStatus .validationError = some 400 ∧
    httpStatus .consentRequired ≠ httpStatus .validationError ∧
    (∀ (c2 : Option Bool) (spec : JobSpec),
      normalize cfg (.voiceClone t lang rt xv c2 audio ins) = .ok spec →
        c2 = some true) := by
  have hn : normalize cfg (.voiceClone t lang rt xv consent audio ins)
      = .error .consentRequired :=
    normalize_clone_noconsent cfg t lang rt xv consent audio ins h
  refine ⟨hn, createJob_err cfg _ store ⟨_, hn⟩, rfl, rfl, by decide, ?_⟩
  intro c2 spec hok
  by_cases hc : c2 = some true
  · exact hc
  · rw [normalize_clone_noconsent cfg t lang rt xv c2 audio ins hc] at hok
    exact Except.noConfusion hok

/-- Claim C3 witness: the theorem applied to a concrete cloning request whose
consent flag is literally false. -/
theorem consentRequiredEnforced_witness :
    normalize defaultConfig
        (.voiceClone "hello" "Auto" none false (some false) ⟨4, some "wav"⟩ none)
      = .error .consentRequired ∧
    (createJob defaultConfig
        (.voiceClone "hello" "Auto" none false (some false) ⟨4, some "wav"⟩ none)
        []).2 = [] ∧
    httpStatus .consentRequired = some 403 ∧
    httpStatus .validationError = some 400 ∧
    httpStatus .consentRequired ≠ httpStatus .validationError ∧
    (∀ (c2 : Option Bool) (spec : JobSpec),
      normalize defaultConfig
          (.voiceClone "hello" "Auto" none false c2 ⟨4, some "wav"⟩ none)
        = .ok spec → c2 = some true) :=
  consentRequiredEnforced defaultConfig "hello" "Auto" none false (some false)
    ⟨4, some "wav"⟩ none [] (by decide)

/-- Claim C5 counterexample: a cloning request whose text has length 10001
(over the documented 10000 cap) but whose consent flag is absent fails with
`consentRequired`, not `validationError` — the consent check precedes the
text-length check, so the claim as stated (any over-long text in any mode
gives `validationError`) is false at this input. -/
theorem textLengthClaimFails :
    defaultConfig.maxTextLength < longText.length ∧
    normalize defaultConfig
        (.voiceClone longText "Auto" none false none ⟨4, some "wav"⟩ none)
      = .error .consentRequired ∧
    ErrKind.consentRequired ≠ ErrKind.validationError := by
  refine ⟨?_, ?_, by decide⟩
  · rw [longText_length]
    norm_num [defaultConfig]
  · exact normalize_clone_noconsent defaultConfig longText "Auto" none false
      none ⟨4, some "wav"⟩ none (by decide)

/-- Claim C5 (amended): in every mode, a request with a text field over the
configured cap and whose earlier cloning checks (consent, reference audio)
pass is rejected with `validationError` and no job is created; a request with
an over-long text field creates no job in any case, whatever earlier error
preempts; and successful normalization carries the request text verbatim,
never truncated. -/
theorem textLengthValidation (cfg : Config) (req : RawRequest)
    (store : List Job)
    (hlong : ∃ t ∈ textFields req, cfg.maxTextLength < t.length)
    (hguards : cloneGuards cfg req) :
    normalize cfg req = .error .validationError ∧
    (createJob cfg req store).2 = store ∧
    (∀ (req2 : RawRequest) (spec : JobSpec),
      normalize cfg req2 = .ok spec → spec.request = req2) ∧
    (∀ (req2 : RawRequest) (store2 : List Job),
      (∃ t ∈ textFields req2, cfg.maxTextLength < t.length) →
      (createJob cfg req2 store2).2 = store2) := by
  have hmain : normalize cfg req = .error .validationError := by
    obtain ⟨t0, ht0, hlen⟩ := hlong
    cases req with
    | customVoice t lang sp ins =>
        obtain rfl : t0 = t := by simpa [textFields] using ht0
        simp only [normalize]
        rw [if_pos hlen]
    | voiceDesign t lang ins =>
        obtain rfl : t0 = t := by simpa [textFields] using ht0
        simp only [normalize]
        rw [if_pos hlen]
    | voiceClone t lang rt xv consent audio ins =>
        obtain ⟨hc, hsize, hacc⟩ := hguards
        obtain rfl : t0 = t := by simpa [textFields] using ht0
        simp only [normalize]
        rw [if_pos hc, if_neg (not_lt.mpr hsize), if_pos hacc, if_pos hlen]
    | voiceDesignClone dt dl di cts cls =>
        by_cases h1 : cts.length ≠ cls.length ∨ cts.length = 0
        · simp only [normalize]
          rw [if_pos h1]
        · simp only [normalize]
          rw [if_neg h1]
          have hany : (dt :: cts).any
              (fun s2 => decide (cfg.maxTextLength < s2.length)) = true := by
            rw [List.any_eq_true]
            exact ⟨t0, by simpa [textFields] using ht0, by simpa using hlen⟩
          rw [if_pos hany]
  refine ⟨hmain, createJob_err cfg req store ⟨_, hmain⟩, ?_, ?_⟩
  · intro req2 spec hok
    exact normalize_ok_id cfg req2 spec hok
  · intro req2 store2 h2
    exact createJob_err cfg req2 store2 (normalize_err_of_longText cfg req2 h2)

/-- Claim C5 witness: the amended theorem applied to a direct-speaker request
carrying the concrete 10001-character text under the default 10000-character
cap. -/
theorem textLengthValidation_witness :
    normalize defaultConfig (.customVoice longText "English" "Ryan" none)
      = .error .validationError ∧
    (createJob defaultConfig (.customVoice longText "English" "Ryan" none)
        []).2 = [] ∧
    (∀ (req2 : RawRequest) (spec : JobSpec),
      normalize defaultConfig req2 = .ok spec → spec.request = req2) ∧
    (∀ (req2 : RawRequest) (store2 : List Job),
      (∃ t ∈ textFields req2, defaultConfig.maxTextLength < t.length) →
      (createJob defaultConfig req2 store2).2 = store2) :=
  textLengthValidation defaultConfig (.customVoice longText "English" "Ryan" none) []
    ⟨longText, by simp [textFields], by rw [longText_length]; norm_num [defaultConfig]⟩
    trivial

/-- Claim C7 counterexample: an oversize cloning payload submitted without the
consent flag is rejected with `consentRequired`, not `payloadTooLarge` — the
consent check precedes the audio checks, so the claim as stated (every
oversize payload on a cloning request gives `payloadTooLarge`) is false at
this input. -/
theorem audioClaimFails :
    defaultConfig.maxAudioUploadBytes < 26214401 ∧
    normalize defaultConfig
        (.voiceClone "hi" "Auto" none false none ⟨26214401, some "wav"⟩ none)
      = .error .consentRequired ∧
    ErrKind.consentRequired ≠ ErrKind.payloadTooLarge := by
  refine ⟨by norm_num [defaultConfig], ?_, by decide⟩
  exact normalize_clone_noconsent defaultConfig "hi" "Auto" none false none
    ⟨26214401, some "wav"⟩ none (by decide)

/-- Claim C7 (amended): for cloning requests that pass the consent check
(performed first by the normalizer), an oversize reference-audio payload is
rejected with `payloadTooLarge` and a within-bound payload that does not
decode as an accepted container is rejected with `unsupportedMedia`; in either
case no job is created.  The documented default bound is 25 MB, and the
client-side upload handler enforces the same two constraints (audio MIME type,
25 MB cap). -/
theorem audioValidation (cfg : Config) (t lang : String) (rt : Option String)
    (xv : Bool) (audio : CloneAudio) (ins : Option String) (store : List Job) :
    (cfg.maxAudioUploadBytes < audio.sizeBytes →
      normalize cfg (.voiceClone t lang rt xv (some true) audio ins)
        = .error .payloadTooLarge ∧
      (createJob cfg (.voiceClone t lang rt xv (some true) audio ins) store).2
        = store) ∧
    (audio.sizeBytes ≤ cfg.maxAudioUploadBytes →
      decodableAccepted audio = false →
      normalize cfg (.voiceClone t lang rt xv (some true) audio ins)
        = .error .unsupportedMedia ∧
      (createJob cfg (.voiceClone t lang rt xv (some true) audio ins) store).2
        = store) ∧
    defaultConfig.maxAudioUploadBytes = 25 * 1024 * 1024 ∧
    (∀ f : UploadFile, 25 * 1024 * 1024 < f.sizeBytes →
      fileUploadAccepted f = false) ∧
    (∀ f : UploadFile, f.mimeType.startsWith "audio/" = false →
      fileUploadAccepted f = false) := by
  refine ⟨fun hsz => ?_, fun hsz hdec => ?_, rfl, fun f hf => ?_, fun f hf => ?_⟩
  · have hn : normalize cfg (.voiceClone t lang rt xv (some true) audio ins)
        = .error .payloadTooLarge := by
      simp [normalize, hsz]
    exact ⟨hn, createJob_err cfg _ store ⟨_, hn⟩⟩
  · have hn : normalize cfg (.voiceClone t lang rt xv (some true) audio ins)
        = .error .unsupportedMedia := by
      simp [normalize, not_lt.mpr hsz, hdec]
    exact ⟨hn, createJob_err cfg _ store ⟨_, hn⟩⟩
  · simp [fileUploadAccepted, hf]
  · simp [fileUploadAccepted, hf]

/-- Claim C7 witness: the amended theorem applied to a consent-acknowledged
cloning request with a concrete payload one byte over the 25 MB bound. -/
theorem audioValidation_witness :
    normalize defaultConfig
        (.voiceClone "hi" "Auto" none false (some true) ⟨26214401, some "wav"⟩ none)
      = .error .payloadTooLarge ∧
    (createJob defaultConfig
        (.voiceClone "hi" "Auto" none false (some true) ⟨26214401, some "wav"⟩ none)
        []).2 = [] :=
  (audioValidation defaultConfig "hi" "Auto" none false ⟨26214401, some "wav"⟩
    none []).1 (by norm_num [defaultConfig])

/-- Claim C1: in every reachable store at most `maxConcurrentJobs` jobs are in
`processing` (documented default 4); while the gate is saturated no queued job
can move to `processing`; and a queued job never moves to `failed` under any
step — it waits (stays `queued`), is admitted to `processing`, or is
explicitly cancelled. -/
theorem concurrencyCeiling (cfg : Config) (js js' : List Job) (i : Nat)
    (j : Job) (hr : Reachable cfg js) (hs : Step cfg js js')
    (hq : js[i]? = some j) (hjq : j.status = JobStatus.queued) :
    procCount js ≤ cfg.maxConcurrentJobs ∧
    defaultConfig.maxConcurrentJobs = 4 ∧
    (procCount js = cfg.maxConcurrentJobs →
      ∀ j2, js'[i]? = some j2 → j2.status ≠ JobStatus.processing) ∧
    (∀ j2, js'[i]? = some j2 →
      j2.status = JobStatus.queued ∨ j2.status = JobStatus.processing ∨
        j2.status = JobStatus.cancelled) := by
  have hstep := step_at hs i j hq
  refine ⟨reachable_procCount_le hr, rfl, ?_, ?_⟩
  · intro hfull j2 hj2 hproc
    rcases hstep with hsame | ⟨j3, hj3, e⟩
    · rw [hsame] at hj2
      obtain rfl : j = j2 := Option.some.inj hj2
      rw [hjq] at hproc
      exact JobStatus.noConfusion hproc
    · rw [hj3] at hj2
      obtain rfl : j3 = j2 := Option.some.inj hj2
      cases e with
      | start hq2 hg =>
          rw [hfull] at hg
          exact lt_irrefl _ hg
      | progressMsg q hp => rw [hjq] at hp; exact JobStatus.noConfusion hp
      | complete res hp => rw [hjq] at hp; exact JobStatus.noConfusion hp
      | fail msg hp => rw [hjq] at hp; exact JobStatus.noConfusion hp
      | cancelQueued hq2 => exact JobStatus.noConfusion hproc
      | cancelProcessing hp => rw [hjq] at hp; exact JobStatus.noConfusion hp
  · intro j2 hj2
    rcases hstep with hsame | ⟨j3, hj3, e⟩
    · rw [hsame] at hj2
      obtain rfl : j = j2 := Option.some.inj hj2
      exact Or.inl hjq
    · rw [hj3] at hj2
      obtain rfl : j3 = j2 := Option.some.inj hj2
      cases e with
      | start hq2 hg => exact Or.inr (Or.inl rfl)
      | progressMsg q hp => rw [hjq] at hp; exact JobStatus.noConfusion hp
      | complete res hp => rw [hjq] at hp; exact JobStatus.noConfusion hp
      | fail msg hp => rw [hjq] at hp; exact JobStatus.noConfusion hp
      | cancelQueued hq2 => exact Or.inr (Or.inr rfl)
      | cancelProcessing hp => rw [hjq] at hp; exact JobStatus.noConfusion hp

/-- Claim C1 witness: the theorem applied to the singleton store holding one
queued job, reached by one admission, under a further admission step. -/
theorem concurrencyCeiling_witness :
    procCount [initialJob] ≤ defaultConfig.maxConcurrentJobs ∧
    defaultConfig.maxConcurrentJobs = 4 ∧
    (procCount [initialJob] = defaultConfig.maxConcurrentJobs →
      ∀ j2, [initialJob, initialJob][0]? = some j2 →
        j2.status ≠ JobStatus.processing) ∧
    (∀ j2, [initialJob, initialJob][0]? = some j2 →
      j2.status = JobStatus.queued ∨ j2.status = JobStatus.processing ∨
        j2.status = JobStatus.cancelled) :=
  concurrencyCeiling defaultConfig [initialJob] [initialJob, initialJob] 0
    initialJob
    (Reachable.step [] [initialJob] Reachable.init (Step.enqueue []))
    (Step.enqueue [initialJob]) (by simp) rfl

/-- Claim C2 counterexample: the schema status union has the sixth member
`streaming`, which is none of the five values the claim allows — so job
statuses are not drawn from exactly five values. -/
theorem statusNotFiveValued :
    ¬ (∀ s : JobStatus, s = JobStatus.queued ∨ s = JobStatus.processing ∨
        s = JobStatus.completed ∨ s = JobStatus.failed ∨
        s = JobStatus.cancelled) := by
  intro h
  rcases h JobStatus.streaming with h1 | h1 | h1 | h1 | h1 <;>
    exact JobStatus.noConfusion h1

/-- Claim C2 (amended): every job status is one of exactly six values — the
five claimed ones plus `streaming` from the schema union — and the three
terminal states are final: a job already in `completed`, `failed` or
`cancelled` is left untouched by every orchestrator step. -/
theorem statusSixValuedTerminalFinal (cfg : Config) (js js' : List Job)
    (i : Nat) (j : Job) (hs : Step cfg js js') (hget : js[i]? = some j)
    (hterm : isTerminal j.status = true) :
    (∀ s : JobStatus, s = JobStatus.queued ∨ s = JobStatus.processing ∨
      s = JobStatus.streaming ∨ s = JobStatus.completed ∨
      s = JobStatus.failed ∨ s = JobStatus.cancelled) ∧
    js'[i]? = some j := by
  refine ⟨fun s => by cases s <;> simp, ?_⟩
  rcases step_at hs i j hget with hsame | ⟨j2, hj2, e⟩
  · exact hsame
  · exfalso
    have hne := isTerminal_ne hterm
    cases e with
    | start hq2 hg => exact hne.1 hq2
    | progressMsg q hp => exact hne.2.1 hp
    | complete res hp => exact hne.2.1 hp
    | fail msg hp => exact hne.2.1 hp
    | cancelQueued hq2 => exact hne.1 hq2
    | cancelProcessing hp => exact hne.2.1 hp

/-- A concrete completed job record with its result payload set. -/
def doneJob : Job :=
  { status := .completed, progress := 1, error := none, result := some "wav-bytes" }

/-- Claim C2 witness: the amended theorem applied to a store holding one
concrete completed job, under an admission step. -/
theorem statusSixValuedTerminalFinal_witness :
    (∀ s : JobStatus, s = JobStatus.queued ∨ s = JobStatus.processing ∨
      s = JobStatus.streaming ∨ s = JobStatus.completed ∨
      s = JobStatus.failed ∨ s = JobStatus.cancelled) ∧
    [doneJob, initialJob][0]? = some doneJob :=
  statusSixValuedTerminalFinal defaultConfig [doneJob] [doneJob, initialJob] 0
    doneJob (Step.enqueue [doneJob]) (by simp) rfl

/-- Claim C4: in every reachable store each job has progress inside the unit
interval, strictly below one while processing; along every step a surviving
job never decreases its progress; progress one occurs exactly on completed
jobs; and the progress-callback update never decreases the value and keeps it
inside the half-open unit interval. -/
theorem progressMonotone (cfg : Config) (js js' : List Job) (i : Nat)
    (j j' : Job) (hr : Reachable cfg js) (hs : Step cfg js js')
    (h1 : js[i]? = some j) (h2 : js'[i]? = some j') :
    0 ≤ j.progress ∧ j.progress ≤ 1 ∧ j.progress ≤ j'.progress ∧
    (j.status = JobStatus.processing → j.progress < 1) ∧
    (j'.progress = 1 → j'.status = JobStatus.completed) ∧
    (j'.status = JobStatus.completed → j'.progress = 1) ∧
    (∀ cur q : ℚ, 0 ≤ cur → cur < 1 →
      cur ≤ progUpdate cur q ∧ 0 ≤ progUpdate cur q ∧ progUpdate cur q < 1) := by
  have hinv : JobInv j := reachable_storeInv hr j (List.getElem?_mem h1)
  have hr' : Reachable cfg js' := Reachable.step js js' hr hs
  have hinv' : JobInv j' := reachable_storeInv hr' j' (List.getElem?_mem h2)
  obtain ⟨ha0, ha1, haq, hap, hae, hac⟩ := hinv
  obtain ⟨hb0, hb1, hbq, hbp, hbe, hbc⟩ := hinv'
  refine ⟨ha0, ha1, ?_, hap, hbe, hbc, ?_⟩
  · rcases step_at hs i j h1 with hsame | ⟨j2, hj2, e⟩
    · rw [hsame] at h2
      obtain rfl : j = j' := Option.some.inj h2
      exact le_refl _
    · rw [hj2] at h2
      obtain rfl : j2 = j' := Option.some.inj h2
      exact e.progress_mono ⟨ha0, ha1, haq, hap, hae, hac⟩
  · intro cur q hcur0 hcur1
    exact ⟨le_progUpdate cur q, progUpdate_nonneg q hcur0,
      progUpdate_lt_one q hcur1⟩

/-- Claim C4 witness: the theorem applied to the singleton queued store under
an admission step. -/
theorem progressMonotone_witness :
    0 ≤ initialJob.progress ∧ initialJob.progress ≤ 1 ∧
    initialJob.progress ≤ initialJob.progress ∧
    (initialJob.status = JobStatus.processing → initialJob.progress < 1) ∧
    (initialJob.progress = 1 → initialJob.status = JobStatus.completed) ∧
    (initialJob.status = JobStatus.completed → initialJob.progress = 1) ∧
    (∀ cur q : ℚ, 0 ≤ cur → cur < 1 →
      cur ≤ progUpdate cur q ∧ 0 ≤ progUpdate cur q ∧ progUpdate cur q < 1) :=
  progressMonotone defaultConfig [initialJob] [initialJob, initialJob] 0
    initialJob initialJob
    (Reachable.step [] [initialJob] Reachable.init (Step.enqueue []))
    (Step.enqueue [initialJob]) (by simp) (by simp)

/-- Claim C6: cancelling a job already in a terminal state fails with
`invalidState` (HTTP 409) rather than succeeding, and the failed cancel
leaves the stored job — its terminal state, result and error — untouched. -/
theorem cancelTerminalInvalidState (js : List Job) (i : Nat) (j : Job)
    (hget : js[i]? = some j) (hterm : isTerminal j.status = true) :
    storeCancel js i = .error .invalidState ∧
    storeAfterCancel js i = js ∧
    httpStatus .invalidState = some 409 ∧
    (storeAfterCancel js i)[i]? = some j := by
  have hc : storeCancel js i = .error .invalidState := by
    simp only [storeCancel, hget]
    rw [if_pos hterm]
  refine ⟨hc, ?_, rfl, ?_⟩
  · simp only [storeAfterCancel, hc]
  · simp only [storeAfterCancel, hc]
    exact hget

/-- Claim C6 witness: the theorem applied to a store holding one concrete
completed job. -/
theorem cancelTerminalInvalidState_witness :
    storeCancel [doneJob] 0 = .error .invalidState ∧
    storeAfterCancel [doneJob] 0 = [doneJob] ∧
    httpStatus .invalidState = some 409 ∧
    (storeAfterCancel [doneJob] 0)[0]? = some doneJob :=
  cancelTerminalInvalidState [doneJob] 0 doneJob (by simp) rfl

end TTSWeb
